import Mathlib

/-!
Verification development for the sims4modorganizer repository.

The embedding models the pure content of the repository's reconciliation
and tagging code:

* `src/commands/util.rs`: `verify_files`, `VerificationPassed`,
  `get_file_hashes`, `cleanup_tags`;
* `src/commands/scan.rs`: the directory classification in `scan`,
  `detect_collision`, and the hash-persisting loops of `add_mod` /
  `update_mod_from_scan`;
* `src/commands/edit.rs`: the bulk-tag delta of `EditMenuAction::BulkTag`,
  `DeleteTag`, and the non-interactive edit path;
* `src/migrator/m20220101_000003_create_hashes.rs`: the UNIQUE constraint
  on the `hash` column;
* the content hasher `format!("{:#10x}", xxh3_64(bytes))`.

Rust `HashMap<PathBuf, String>` values are modelled as a finite key set
together with a value function (`HMap`); Rust `HashSet` values as
`Finset String`; database integer ids as `Int`.
-/

namespace Sims4ModOrganizer

/-- A Rust `HashMap<PathBuf, String>`: a finite set of keys plus the value
each key maps to.  `get` mirrors `HashMap::get`, returning `none` off the
key set. -/
structure HMap where
  keys : Finset String
  val : String → String

/-- `HashMap::get`: `some` of the stored value on the key set, else `none`. -/
def HMap.get (m : HMap) (k : String) : Option String :=
  if k ∈ m.keys then some (m.val k) else none

/-- `VerificationValues` (src/commands/util.rs lines 18-23): the four buckets
produced by `verify_files`.  `new_files` and `changed_files` are hash maps
(path → freshly scanned hash); `missing_files` and `matching_files` carry
paths only. -/
structure VerificationValues where
  new_files : HMap
  missing_files : Finset String
  matching_files : Finset String
  changed_files : HMap

/-- `VerificationPassed for VerificationValues` (util.rs lines 29-33):
`new_files.is_empty() && missing_files.is_empty() && changed_files.is_empty()`. -/
def VerificationValues.verification_passed (v : VerificationValues) : Bool :=
  decide (v.new_files.keys = ∅) && decide (v.missing_files = ∅) &&
    decide (v.changed_files.keys = ∅)

/-- `verify_files` (util.rs lines 79-133), with the filesystem factored out:
the pair `(current_packages, package_hashes)` that `get_file_hashes` returns
has `current_packages` equal to the key set of `package_hashes` (the map is
built by iterating the set), so the freshly scanned state is one `HMap`
`scanned`.  `hashes` is the recorded map from the database.

Line by line: `db_file_list` is the recorded key set, `missing_files` its
difference with the scanned keys, `new_files` the scanned entries whose key
is scanned-only, `common_files` the intersection, `matching_files` the
common paths whose two `get` results agree, and `changed_files` the common
paths not in `matching_files`, mapped to the scanned hash. -/
def verify_files (hashes scanned : HMap) : VerificationValues :=
  let db_file_list : Finset String := hashes.keys
  let current_packages : Finset String := scanned.keys
  let missing_files := db_file_list \ current_packages
  let new_keys := current_packages \ db_file_list
  let common_files := db_file_list ∩ current_packages
  let matching_files := common_files.filter fun file => scanned.get file = hashes.get file
  let changed_keys := common_files.filter fun file => file ∉ matching_files
  { new_files := ⟨new_keys, scanned.val⟩
    missing_files := missing_files
    matching_files := matching_files
    changed_files := ⟨changed_keys, scanned.val⟩ }

/-- Maps of the spec's first verification scenario: recorded
`{"a.package": "h1"}`. -/
def scenarioRecordedA : HMap := ⟨{"a.package"}, fun _ => "h1"⟩

/-- Scanned map `{"a.package": "h1", "b.package": "h2"}` of the first
scenario. -/
def scenarioScannedAB : HMap :=
  ⟨{"a.package", "b.package"}, fun p => if p = "b.package" then "h2" else "h1"⟩

/-- Scanned map `{"a.package": "h9"}` of the second scenario. -/
def scenarioScannedA9 : HMap := ⟨{"a.package"}, fun _ => "h9"⟩

/-! ## Bulk tagging (src/commands/edit.rs, `EditMenuAction::BulkTag`) -/

/-- The member-id set of one tag: the mod ids of the `(mod_id, tag_id)` link
rows carrying that tag id.  In the source this is `tag_mods`, read through
`Tag::find_by_id(tag_id).find_with_related(SimsMod)`. -/
def tagMembers (links : Finset (Int × Int)) (tagId : Int) : Finset Int :=
  (links.filter fun l => l.2 = tagId).image Prod.fst

/-- The bulk-tag apply step (edit.rs lines 446-471): insert a link
`(mid, tag_id)` for every `mid` in `selected_mod_ids.difference(&tag_mods)`,
then `delete_many` the rows whose `TagId` equals `tag_id` and whose `ModId`
is one of `tag_mods.difference(&selected_mod_ids)` (an empty disjunction of
`ModId` clauses holds of no row). -/
def bulkTagApply (links : Finset (Int × Int)) (tagId : Int) (selected : Finset Int) :
    Finset (Int × Int) :=
  let tag_mods := tagMembers links tagId
  let inserted := (selected \ tag_mods).image fun m => (m, tagId)
  (links ∪ inserted).filter fun l => ¬(l.2 = tagId ∧ l.1 ∈ tag_mods \ selected)

/-! ## Collision detection and the `mod_hashes` UNIQUE constraint
(src/commands/scan.rs `detect_collision`, `add_mod`, `update_mod_from_scan`;
src/migrator/m20220101_000003_create_hashes.rs) -/

/-- One row of the `mod_hashes` table (the auto-increment `id` column plays
no role in the modelled behaviour). -/
structure ModHashRow where
  mod_id : Int
  file : String
  hash : String
deriving DecidableEq

/-- What the collision banner of `detect_collision` (scan.rs lines 46-58)
prints: the shared hash, the mod/file being persisted, and the mod id and
file of the already-stored row. -/
structure CollisionWarning where
  hash : String
  colliding_mod : String
  colliding_file : String
  existing_mod_id : Int
  existing_file : String
deriving DecidableEq

/-- `detect_collision` (scan.rs lines 36-60): query the first stored row
with the same hash string; if one exists, emit the warning (the existing
mod is reached through `find_related(SimsMod)` from the row's `mod_id`).
It never returns an error for a collision. -/
def detect_collision (rows : List ModHashRow) (name file hash : String) :
    Option CollisionWarning :=
  (rows.find? fun r => r.hash == hash).map fun c =>
    ⟨hash, name, file, c.mod_id, c.file⟩

/-- `ModHash::insert` under the schema of
m20220101_000003_create_hashes.rs lines 25-30: the `hash` column is created
with `.unique_key()`, so inserting a row whose hash equals a stored row's
hash violates the UNIQUE constraint and the statement returns an error;
otherwise the row is appended. -/
def insert_mod_hash (rows : List ModHashRow) (r : ModHashRow) :
    Except String (List ModHashRow) :=
  if rows.any fun q => q.hash == r.hash then
    Except.error "UNIQUE constraint failed: mod_hashes.hash"
  else
    Except.ok (rows ++ [r])

/-- One iteration of the hash-persisting loops of `add_mod` (scan.rs lines
133-147) and `update_mod_from_scan` (lines 200-214): run `detect_collision`,
then insert the row. -/
def persist_hash (rows : List ModHashRow) (modId : Int) (name file hash : String) :
    Option CollisionWarning × Except String (List ModHashRow) :=
  (detect_collision rows name file hash, insert_mod_hash rows ⟨modId, file, hash⟩)

/-- A fixed store holding one hash row, used to exercise `persist_hash` on a
duplicate fingerprint. -/
def collisionStore : List ModHashRow := [⟨1, "b.package", "h"⟩]

/-! ## Directory classification (src/commands/scan.rs `scan`) -/

/-- The kind of a directory entry as the scan code distinguishes them:
`Path::is_file`, `Path::is_dir`, or neither. -/
inductive FsKind where
  | file
  | dir
  | other
deriving DecidableEq

/-- An immediate entry of a listed directory: its final component name and
its kind. -/
structure FsEntry where
  name : String
  kind : FsKind
deriving DecidableEq

/-- `mod_dir_subdirs` (scan.rs lines 240-249): the file names of the
entries that are directories and are not named `mod_data`. -/
def mod_dir_subdirs (entries : List FsEntry) : Finset String :=
  ((entries.filter fun e =>
      decide (e.kind = FsKind.dir) && decide (e.name ≠ "mod_data")).map
    (fun e => e.name)).toFinset

/-- `new_mods` (scan.rs line 257): on-disk subdirectories not recorded. -/
def new_mods (entries : List FsEntry) (recorded : Finset String) : Finset String :=
  mod_dir_subdirs entries \ recorded

/-- `missing_mods` (scan.rs line 258): recorded directories not on disk. -/
def missing_mods (entries : List FsEntry) (recorded : Finset String) : Finset String :=
  recorded \ mod_dir_subdirs entries

/-- `mods_to_scan` (scan.rs line 259): recorded directories also on disk. -/
def mods_to_scan (entries : List FsEntry) (recorded : Finset String) : Finset String :=
  recorded ∩ mod_dir_subdirs entries

/-! ## Inventory scanning (src/commands/util.rs `get_file_hashes`) -/

/-- Split a character list at its last `.`: `some (before, after)` when a
dot occurs, preferring the rightmost one. -/
def lastDotSplit : List Char → Option (List Char × List Char)
  | [] => none
  | c :: rest =>
    match lastDotSplit rest with
    | some (b, a) => some (c :: b, a)
    | none => if c = '.' then some ([], rest) else none

/-- Rust `Path::extension` on a final path component: `none` when the name
is `..`, has no dot, or its only dot is the leading character; otherwise
the text after the last dot. -/
def rustExtension (name : String) : Option String :=
  if name = ".." then none
  else
    match lastDotSplit name.data with
    | none => none
    | some (before, after) => if before = [] then none else some (String.mk after)

/-- The filter of `get_file_hashes` (util.rs lines 47-60): keep an entry
when it is a regular file whose extension is `package` or `ts4script`. -/
def isRecognizedPackage (e : FsEntry) : Bool :=
  decide (e.kind = FsKind.file) &&
    (decide (rustExtension e.name = some "package") ||
      decide (rustExtension e.name = some "ts4script"))

/-- `current_packages` of `get_file_hashes`: the names of the entries that
survive the filter. -/
def scanned_package_names (entries : List FsEntry) : Finset String :=
  ((entries.filter isRecognizedPackage).map (fun e => e.name)).toFinset

/-- `get_file_hashes` (util.rs lines 35-77) with the filesystem factored
out: `entries` are the immediate entries of the mod directory and
`hashOf n` stands for the fingerprint of the bytes of the file named `n`
(the source computes it with the content hasher).  Returns
`(current_packages, hashes)` where the hash map is built by iterating
`current_packages`. -/
def get_file_hashes (entries : List FsEntry) (hashOf : String → String) :
    Finset String × HMap :=
  let current_packages := scanned_package_names entries
  (current_packages, ⟨current_packages, hashOf⟩)

/-- A directory holding one regular file named `.foo.package`. -/
def hiddenEntries : List FsEntry := [⟨".foo.package", FsKind.file⟩]

/-- A dotfile in the Unix sense: the name's first character is `.`. -/
def isHiddenName (s : String) : Bool :=
  match s.data with
  | [] => false
  | c :: _ => c == '.'

/-! ## The content hasher: `format!("{:#10x}", xxh3_64(bytes))`
(util.rs line 72) -/

/-- `XXH_PRIME64_2` of the xxHash reference. -/
def PRIME64_2 : Nat := 0xC2B2AE3D27D4EB4F

/-- `XXH_PRIME64_3` of the xxHash reference. -/
def PRIME64_3 : Nat := 0x165667B19E3779F9

/-- `XXH64_avalanche` on a 64-bit value, machine arithmetic made explicit
with `% 2 ^ 64`. -/
def xxh64_avalanche (h0 : Nat) : Nat :=
  let h1 := h0 ^^^ (h0 >>> 33)
  let h2 := h1 * PRIME64_2 % 2 ^ 64
  let h3 := h2 ^^^ (h2 >>> 29)
  let h4 := h3 * PRIME64_3 % 2 ^ 64
  h4 ^^^ (h4 >>> 32)

/-- The first little-endian `u32` word of the default XXH3 secret
`kSecret` (bytes `b8 fe 6c 39`). -/
def xxh3SecretWord0 : Nat := 0x396cfeb8

/-- The second little-endian `u32` word of `kSecret`
(bytes `23 a4 4b be`). -/
def xxh3SecretWord1 : Nat := 0xbe4ba423

/-- `XXH3_64bits` with seed 0 and the default secret for inputs of one to
three bytes (`XXH3_len_1to3_64b` of the reference): the short-input path of
the `xxh3_64` the source calls.  `data` is the byte list; with seed 0 the
`bitflip` term is just the xor of the two secret words. -/
def xxh3_64_short (data : List Nat) : Nat :=
  let len := data.length
  let c1 := data.getD 0 0
  let c2 := data.getD (len / 2) 0
  let c3 := data.getD (len - 1) 0
  let combined := ((c1 <<< 16) ||| (c2 <<< 24) ||| c3 ||| (len <<< 8)) % 2 ^ 32
  let bitflip := xxh3SecretWord0 ^^^ xxh3SecretWord1
  xxh64_avalanche (combined ^^^ bitflip)

/-- One lowercase hexadecimal digit. -/
def hexDigitChar (n : Nat) : Char :=
  if n < 10 then Char.ofNat (48 + n) else Char.ofNat (87 + n)

/-- The lowercase hexadecimal digits of `n`, most significant first.  The
fuel bounds the digit count; 16 digits cover every 64-bit value. -/
def hexDigitsCore : Nat → Nat → List Char → List Char
  | 0, _, acc => acc
  | fuel + 1, n, acc =>
    if n < 16 then hexDigitChar n :: acc
    else hexDigitsCore fuel (n / 16) (hexDigitChar (n % 16) :: acc)

/-- Rust `{:x}` of a `u64`: minimal lowercase hex digits, `"0"` for zero. -/
def rust_hex_lower (n : Nat) : String :=
  String.mk (hexDigitsCore 16 n [])

/-- Rust `format!("{:#10x}", n)`: the `#` flag prepends `0x`, and the
minimum width 10 is reached by left-padding with the default space fill —
there is no `0` flag, so no zero padding. -/
def rust_format_alt_hex (width n : Nat) : String :=
  let s := "0x" ++ rust_hex_lower n
  if s.length < width then String.mk (List.replicate (width - s.length) ' ') ++ s else s

/-- The fingerprint of a (short) byte sequence, exactly as util.rs line 72
computes it: `format!("{:#10x}", xxh3_64(bytes))`. -/
def fingerprint_short (data : List Nat) : String :=
  rust_format_alt_hex 10 (xxh3_64_short data)

/-! ## Tag garbage collection (util.rs `cleanup_tags`; scan.rs, edit.rs) -/

/-- The database state the tag operations touch: mod ids, tag ids, and the
`(mod_id, tag_id)` link rows. -/
structure DbState where
  mods : Finset Int
  tags : Finset Int
  links : Finset (Int × Int)

/-- The distinct `tag_id` values appearing in the link table (the
`select_only ... unique` query of `cleanup_tags`). -/
def usedTagIds (links : Finset (Int × Int)) : Finset Int :=
  links.image Prod.snd

/-- `cleanup_tags` (util.rs lines 277-294): delete every tag whose id
differs from all used tag ids, keeping exactly the tags some link still
references. -/
def cleanup_tags (s : DbState) : DbState :=
  { s with tags := s.tags.filter fun t => t ∈ usedTagIds s.links }

/-- Deleting one mod row; the foreign keys of
m20220101_000004_create_mod_tag_relations.rs (and of the hashes table)
cascade, removing the mod's link rows. -/
def delete_mod_cascade (s : DbState) (m : Int) : DbState :=
  { s with mods := s.mods.erase m, links := s.links.filter fun l => l.1 ≠ m }

/-- The outcome of one `Confirm::new(...).prompt()` call in
`ask_delete_mod` (scan.rs lines 14-34): the user answers yes or no, or the
prompt is cancelled/interrupted/fails — which the `?` operator propagates
out of `ask_delete_mod` and then (scan.rs line 284) out of `scan`. -/
inductive PromptResult where
  | yes
  | no
  | cancel
deriving DecidableEq

/-- `ask_delete_mod` (scan.rs lines 14-34): on yes, delete the mod row
right there — a single auto-committed statement on the connection, no
surrounding transaction, with the foreign keys cascading — on no, change
nothing, and on a cancelled or failed prompt return the error (`none`). -/
def ask_delete_mod (s : DbState) (m : Int) (ans : PromptResult) : Option DbState :=
  match ans with
  | .yes => some (delete_mod_cascade s m)
  | .no => some s
  | .cancel => none

/-- The `for missing_mod in missing_mods` loop of `scan` (scan.rs lines
279-292) in fix mode: each confirmed delete commits immediately; a
cancelled or failed prompt makes `scan` return at once (`.await?`),
keeping every delete already committed.  Returns the committed state and
whether the loop ran to completion.  (Report-only mode prints instead of
prompting, behaving like every answer being `no`.) -/
def run_missing_loop (s : DbState) (missing : List Int) (answer : Int → PromptResult) :
    DbState × Bool :=
  match missing with
  | [] => (s, true)
  | m :: rest =>
    match ask_delete_mod s m (answer m) with
    | some s1 => run_missing_loop s1 rest answer
    | none => (s, false)

/-- The whole missing-mod block of `scan` (scan.rs lines 274-296): guarded
by `!missing_mods.is_empty()`, the confirmation loop runs, and
`cleanup_tags` — a further separate statement on the same connection —
runs only if the loop finished without a propagated prompt error. -/
def scan_missing_pass (s : DbState) (missing : List Int) (answer : Int → PromptResult) :
    DbState × Bool :=
  if missing.isEmpty then (s, true)
  else
    match run_missing_loop s missing answer with
    | (s1, true) => (cleanup_tags s1, true)
    | (s1, false) => (s1, false)

/-- A store with two mods, one tag (id 7), and tag 7 linked only to
mod 1. -/
def orphanState : DbState := ⟨{1, 2}, {7}, {(1, 7)}⟩

/-- Prompt answers that confirm deleting mod 1 and then cancel at the
prompt for mod 2. -/
def orphanAnswers : Int → PromptResult := fun m => if m = 1 then .yes else .cancel

/-- `EditMenuAction::DeleteTag` (edit.rs lines 296-324): delete the one
link row, then `cleanup_tags`, inside one transaction. -/
def delete_tag_action (s : DbState) (modId tagId : Int) : DbState :=
  cleanup_tags { s with links := s.links.erase (modId, tagId) }

/-- `EditMenuAction::BulkTag` (edit.rs lines 368-480): `get_or_create` the
tag, apply the bulk delta, then `cleanup_tags`, inside one transaction. -/
def bulk_tag_action (s : DbState) (tagId : Int) (selected : Finset Int) : DbState :=
  cleanup_tags
    { s with tags := s.tags ∪ {tagId}, links := bulkTagApply s.links tagId selected }

/-- The non-interactive edit path (edit.rs lines 499-532) when a tag list
is given: delete every link of the mod, insert a link for each new tag
(creating the tags), then `cleanup_tags`, inside one transaction. -/
def edit_set_tags (s : DbState) (modId : Int) (newTags : Finset Int) : DbState :=
  cleanup_tags
    { s with
      tags := s.tags ∪ newTags
      links := s.links.filter (fun l => l.1 ≠ modId) ∪ newTags.image fun t => (modId, t) }

/-- No orphan tags: every tag of the state is referenced by some link, so
a tag with zero links is absent from a tag listing (`Tag::find().all`). -/
def noOrphanTags (s : DbState) : Prop :=
  ∀ t ∈ s.tags, ∃ m, (m, t) ∈ s.links

/-! ## Theorems -/

/-- Membership in a tag's member set is membership of the link row. -/
theorem mem_tagMembers (links : Finset (Int × Int)) (t m : Int) :
    m ∈ tagMembers links t ↔ (m, t) ∈ links := by
  simp only [tagMembers, Finset.mem_image, Finset.mem_filter]
  constructor
  · rintro ⟨⟨a, b⟩, ⟨hmem, hb⟩, ha⟩
    cases ha; cases hb; exact hmem
  · intro h
    exact ⟨(m, t), ⟨h, rfl⟩, rfl⟩

/-- After `cleanup_tags`, every remaining tag is referenced by a link. -/
theorem cleanup_no_orphans (s : DbState) : noOrphanTags (cleanup_tags s) := by
  intro t ht
  simp only [cleanup_tags, Finset.mem_filter, usedTagIds, Finset.mem_image] at ht
  rcases ht.2 with ⟨⟨m, t'⟩, hmem, hsnd⟩
  cases hsnd
  exact ⟨m, hmem⟩

/-- Claim C1: for every recorded map and every scanned map, the four
buckets of `verify_files` partition the union of the two path sets — their
union is the union of the key sets, and they are pairwise disjoint, so
every path of either map lies in exactly one bucket and no bucket holds a
path outside the union. -/
theorem verify_files_partition (hashes scanned : HMap) :
    ((verify_files hashes scanned).matching_files ∪
        (verify_files hashes scanned).missing_files ∪
        (verify_files hashes scanned).new_files.keys ∪
        (verify_files hashes scanned).changed_files.keys =
      hashes.keys ∪ scanned.keys) ∧
    Disjoint (verify_files hashes scanned).matching_files
      (verify_files hashes scanned).missing_files ∧
    Disjoint (verify_files hashes scanned).matching_files
      (verify_files hashes scanned).new_files.keys ∧
    Disjoint (verify_files hashes scanned).matching_files
      (verify_files hashes scanned).changed_files.keys ∧
    Disjoint (verify_files hashes scanned).missing_files
      (verify_files hashes scanned).new_files.keys ∧
    Disjoint (verify_files hashes scanned).missing_files
      (verify_files hashes scanned).changed_files.keys ∧
    Disjoint (verify_files hashes scanned).new_files.keys
      (verify_files hashes scanned).changed_files.keys := by
  simp only [verify_files]
  refine ⟨?_, ?_, ?_, ?_, ?_, ?_, ?_⟩
  · ext p
    simp only [Finset.mem_union, Finset.mem_filter, Finset.mem_inter, Finset.mem_sdiff]
    tauto
  all_goals
    rw [Finset.disjoint_left]
    intro p hp hq
    simp only [Finset.mem_filter, Finset.mem_inter, Finset.mem_sdiff] at hp hq
    tauto

/-- Claim C2: `verify_files` buckets each path by membership and hash
comparison — a path in both maps is matching iff the hashes agree and
changed (carrying the scanned hash) iff they differ, a recorded-only path
is missing, a scanned-only path is new with its scanned hash — and the
spec's two concrete scenarios produce exactly the stated buckets with
`verification_passed = false`. -/
theorem verify_files_buckets (hashes scanned : HMap) (p : String) :
    ((p ∈ (verify_files hashes scanned).matching_files ↔
        p ∈ hashes.keys ∧ p ∈ scanned.keys ∧ scanned.val p = hashes.val p) ∧
      (p ∈ (verify_files hashes scanned).changed_files.keys ↔
        p ∈ hashes.keys ∧ p ∈ scanned.keys ∧ scanned.val p ≠ hashes.val p) ∧
      (verify_files hashes scanned).changed_files.val p = scanned.val p ∧
      (p ∈ (verify_files hashes scanned).missing_files ↔
        p ∈ hashes.keys ∧ p ∉ scanned.keys) ∧
      (p ∈ (verify_files hashes scanned).new_files.keys ↔
        p ∈ scanned.keys ∧ p ∉ hashes.keys) ∧
      (verify_files hashes scanned).new_files.val p = scanned.val p) ∧
    ((verify_files scenarioRecordedA scenarioScannedAB).matching_files = {"a.package"} ∧
      (verify_files scenarioRecordedA scenarioScannedAB).new_files.keys = {"b.package"} ∧
      (verify_files scenarioRecordedA scenarioScannedAB).new_files.val "b.package" = "h2" ∧
      (verify_files scenarioRecordedA scenarioScannedAB).missing_files = ∅ ∧
      (verify_files scenarioRecordedA scenarioScannedAB).changed_files.keys = ∅ ∧
      (verify_files scenarioRecordedA scenarioScannedAB).verification_passed = false) ∧
    ((verify_files scenarioRecordedA scenarioScannedA9).changed_files.keys = {"a.package"} ∧
      (verify_files scenarioRecordedA scenarioScannedA9).changed_files.val "a.package" = "h9" ∧
      (verify_files scenarioRecordedA scenarioScannedA9).matching_files = ∅ ∧
      (verify_files scenarioRecordedA scenarioScannedA9).missing_files = ∅ ∧
      (verify_files scenarioRecordedA scenarioScannedA9).new_files.keys = ∅ ∧
      (verify_files scenarioRecordedA scenarioScannedA9).verification_passed = false) := by
  refine ⟨⟨?_, ?_, ?_, ?_, ?_, ?_⟩, by decide, by decide⟩
  · simp only [verify_files, HMap.get, Finset.mem_filter, Finset.mem_inter]
    constructor
    · rintro ⟨⟨hdb, hcur⟩, h⟩
      rw [if_pos hcur, if_pos hdb] at h
      exact ⟨hdb, hcur, Option.some_injective _ h⟩
    · rintro ⟨hdb, hcur, h⟩
      exact ⟨⟨hdb, hcur⟩, by rw [if_pos hcur, if_pos hdb, h]⟩
  · simp only [verify_files, HMap.get, Finset.mem_filter, Finset.mem_inter]
    constructor
    · rintro ⟨⟨hdb, hcur⟩, h⟩
      refine ⟨hdb, hcur, fun hv => h ⟨⟨hdb, hcur⟩, ?_⟩⟩
      rw [if_pos hcur, if_pos hdb, hv]
    · rintro ⟨hdb, hcur, hv⟩
      refine ⟨⟨hdb, hcur⟩, fun hmem => hv ?_⟩
      rcases hmem with ⟨-, h⟩
      rw [if_pos hcur, if_pos hdb] at h
      exact Option.some_injective _ h
  · rfl
  · simp only [verify_files, Finset.mem_sdiff]
  · simp only [verify_files, Finset.mem_sdiff]
  · rfl

/-- Claim C3: `verification_passed` holds iff the new, missing and changed
buckets are all empty; the matching bucket never affects the result; and
the empty-maps scenario yields four empty buckets and passes. -/
theorem verification_passed_iff (v : VerificationValues) :
    (v.verification_passed = true ↔
      v.new_files.keys = ∅ ∧ v.missing_files = ∅ ∧ v.changed_files.keys = ∅) ∧
    (∀ m : Finset String,
      (VerificationValues.mk v.new_files v.missing_files m v.changed_files).verification_passed =
        v.verification_passed) ∧
    ((verify_files ⟨∅, fun _ => ""⟩ ⟨∅, fun _ => ""⟩).matching_files = ∅ ∧
      (verify_files ⟨∅, fun _ => ""⟩ ⟨∅, fun _ => ""⟩).missing_files = ∅ ∧
      (verify_files ⟨∅, fun _ => ""⟩ ⟨∅, fun _ => ""⟩).new_files.keys = ∅ ∧
      (verify_files ⟨∅, fun _ => ""⟩ ⟨∅, fun _ => ""⟩).changed_files.keys = ∅ ∧
      (verify_files ⟨∅, fun _ => ""⟩ ⟨∅, fun _ => ""⟩).verification_passed = true) := by
  refine ⟨?_, fun m => rfl, by decide⟩
  simp [VerificationValues.verification_passed, Bool.and_eq_true, decide_eq_true_eq, and_assoc]

/-- Claim C4: the bulk-tag delta is exact and minimal — with current
members `C` and target `T`, the insert set `T \ C` and delete set `C \ T`
are disjoint, applying them to `C` yields `T`, both are empty when `C = T`,
the applied row delta is exactly those inserts and tag-scoped deletes, the
tag's members afterwards are exactly `T`, and other tags' memberships are
untouched. -/
theorem bulk_tag_delta (links : Finset (Int × Int)) (tagId : Int) (selected : Finset Int) :
    Disjoint (selected \ tagMembers links tagId) (tagMembers links tagId \ selected) ∧
    (tagMembers links tagId ∪ (selected \ tagMembers links tagId)) \
        (tagMembers links tagId \ selected) = selected ∧
    (tagMembers links tagId = selected →
      selected \ tagMembers links tagId = ∅ ∧ tagMembers links tagId \ selected = ∅) ∧
    bulkTagApply links tagId selected =
      (links ∪ (selected \ tagMembers links tagId).image fun m => (m, tagId)) \
        ((tagMembers links tagId \ selected).image fun m => (m, tagId)) ∧
    tagMembers (bulkTagApply links tagId selected) tagId = selected ∧
    (∀ t : Int, t ≠ tagId →
      tagMembers (bulkTagApply links tagId selected) t = tagMembers links t) := by
  refine ⟨?_, ?_, ?_, ?_, ?_, ?_⟩
  · rw [Finset.disjoint_left]
    intro m hm hq
    simp only [Finset.mem_sdiff] at hm hq
    exact hq.2 hm.1
  · ext m
    simp only [Finset.mem_sdiff, Finset.mem_union]
    tauto
  · intro h
    rw [h]
    simp
  · ext l
    rcases l with ⟨a, b⟩
    simp only [bulkTagApply, Finset.mem_filter, Finset.mem_union, Finset.mem_sdiff,
      Finset.mem_image, mem_tagMembers, Prod.mk.injEq]
    constructor
    · rintro ⟨hin, hnot⟩
      refine ⟨hin, ?_⟩
      rintro ⟨m, ⟨hmC, hmT⟩, rfl, rfl⟩
      exact hnot ⟨rfl, hmC, hmT⟩
    · rintro ⟨hin, hnot⟩
      refine ⟨hin, ?_⟩
      rintro ⟨h2, h1C, h1T⟩
      subst h2
      exact hnot ⟨a, ⟨h1C, h1T⟩, rfl, rfl⟩
  · ext m
    rw [mem_tagMembers]
    simp only [bulkTagApply, Finset.mem_filter, Finset.mem_union, Finset.mem_image,
      Finset.mem_sdiff, mem_tagMembers, Prod.mk.injEq]
    constructor
    · rintro ⟨hin, hnot⟩
      by_contra hms
      rcases hin with hl | ⟨x, ⟨hxT, hxC⟩, hx1, -⟩
      · exact hnot ⟨trivial, hl, hms⟩
      · subst hx1
        exact hms hxT
    · intro hms
      by_cases hC : (m, tagId) ∈ links
      · exact ⟨Or.inl hC, fun h => h.2.2 hms⟩
      · exact ⟨Or.inr ⟨m, ⟨hms, hC⟩, rfl, trivial⟩, fun h => h.2.2 hms⟩
  · intro t ht
    ext m
    rw [mem_tagMembers, mem_tagMembers]
    simp only [bulkTagApply, Finset.mem_filter, Finset.mem_union, Finset.mem_image,
      Prod.mk.injEq]
    constructor
    · rintro ⟨hin, -⟩
      rcases hin with hl | ⟨x, -, -, hx2⟩
      · exact hl
      · exact absurd hx2.symm ht
    · intro hl
      exact ⟨Or.inl hl, fun h => ht h.1⟩

/-- Claim C5: at the failing input — a store already holding fingerprint
`"h"` for mod 1's `b.package`, and mod 2's `c.package` arriving with the
same fingerprint — `detect_collision` does emit the non-fatal warning
identifying both sides, but the insert itself violates the UNIQUE
constraint on the `hash` column and returns an error, so the write does
not succeed (a fresh store accepts the same row). -/
theorem duplicate_fingerprint_blocks_insert :
    detect_collision collisionStore "ModB" "c.package" "h" =
      some ⟨"h", "ModB", "c.package", 1, "b.package"⟩ ∧
    insert_mod_hash collisionStore ⟨2, "c.package", "h"⟩ =
      Except.error "UNIQUE constraint failed: mod_hashes.hash" ∧
    persist_hash collisionStore 2 "ModB" "c.package" "h" =
      (some ⟨"h", "ModB", "c.package", 1, "b.package"⟩,
        Except.error "UNIQUE constraint failed: mod_hashes.hash") ∧
    insert_mod_hash [] ⟨2, "c.package", "h"⟩ = Except.ok [⟨2, "c.package", "h"⟩] :=
  ⟨rfl, rfl, rfl, rfl⟩

/-- Claim C6: the scan's directory classification is a total partition —
new, missing and existing together are exactly the union of the computed
on-disk subdirectory set and the recorded directory set, and the three are
pairwise disjoint. -/
theorem scan_classification_partition (entries : List FsEntry) (recorded : Finset String) :
    (new_mods entries recorded ∪ missing_mods entries recorded ∪
        mods_to_scan entries recorded = mod_dir_subdirs entries ∪ recorded) ∧
    Disjoint (new_mods entries recorded) (missing_mods entries recorded) ∧
    Disjoint (new_mods entries recorded) (mods_to_scan entries recorded) ∧
    Disjoint (missing_mods entries recorded) (mods_to_scan entries recorded) := by
  refine ⟨?_, ?_, ?_, ?_⟩
  · ext p
    simp only [new_mods, missing_mods, mods_to_scan, Finset.mem_union, Finset.mem_sdiff,
      Finset.mem_inter]
    tauto
  all_goals
    rw [Finset.disjoint_left]
    intro p hp hq
    simp only [new_mods, missing_mods, mods_to_scan, Finset.mem_sdiff, Finset.mem_inter] at hp hq
    tauto

/-- Claim C7 counterexample: the fingerprints of the one-byte inputs
`0x00` and `0x91` are 18 and 15 characters long, so fingerprints do not
all have one fixed zero-padded length. -/
theorem fingerprint_not_fixed_width :
    fingerprint_short [0x00] = "0xc44bdff4074eecdb" ∧
    fingerprint_short [0x91] = "0x5b2e934ceef7d" ∧
    (fingerprint_short [0x00]).length = 18 ∧
    (fingerprint_short [0x91]).length = 15 ∧
    ¬∀ d1 d2 : List Nat, (fingerprint_short d1).length = (fingerprint_short d2).length := by
  refine ⟨by decide, by decide, by decide, by decide, fun h => ?_⟩
  have h2 := h [0x00] [0x91]
  rw [show fingerprint_short [0x00] = "0xc44bdff4074eecdb" by decide,
    show fingerprint_short [0x91] = "0x5b2e934ceef7d" by decide] at h2
  exact absurd h2 (by decide)

/-- Claim C7 as amended: the hasher is deterministic (a pure function of
the bytes), the fingerprint is the 64-bit hash rendered `0x`-prefixed in
lowercase hex, left-padded with spaces to a minimum width of 10, so its
length is `max 10 (2 + digits)` — at least 10 but not fixed. -/
theorem fingerprint_format (d1 d2 : List Nat) (n : Nat) :
    (d1 = d2 → fingerprint_short d1 = fingerprint_short d2) ∧
    fingerprint_short d1 = rust_format_alt_hex 10 (xxh3_64_short d1) ∧
    xxh3_64_short d1 < 2 ^ 64 ∧
    10 ≤ (rust_format_alt_hex 10 n).length ∧
    (rust_format_alt_hex 10 n).length =
      max 10 (2 + (hexDigitsCore 16 n []).length) ∧
    rust_format_alt_hex 10 0x5 = "       0x5" ∧
    rust_format_alt_hex 10 0xc44bdff4074eecdb = "0xc44bdff4074eecdb" := by
  have h0x : ("0x" : String).length = 2 := rfl
  have hlen : ∀ m : Nat, (rust_format_alt_hex 10 m).length =
      max 10 (2 + (hexDigitsCore 16 m []).length) := by
    intro m
    simp only [rust_format_alt_hex, rust_hex_lower]
    by_cases h : ("0x" ++ String.mk (hexDigitsCore 16 m [])).length < 10
    · rw [if_pos h]
      simp only [String.length_append, String.length_mk, List.length_replicate, h0x] at *
      omega
    · rw [if_neg h]
      simp only [String.length_append, String.length_mk, h0x] at *
      omega
  refine ⟨fun h => by rw [h], rfl, ?_, ?_, hlen n, by decide, by decide⟩
  · have hx : ∀ a b : Nat, a < 2 ^ 64 → b < 2 ^ 64 → a ^^^ b < 2 ^ 64 := by
      intro a b ha hb
      exact Nat.xor_lt_two_pow ha hb
    simp only [xxh3_64_short, xxh64_avalanche]
    apply hx
    · exact Nat.mod_lt _ (by norm_num)
    · rw [Nat.shiftRight_eq_div_pow]
      exact lt_of_le_of_lt (Nat.div_le_self _ _) (Nat.mod_lt _ (by norm_num))
  · rw [hlen n]
    omega

/-- Claim C8 counterexample: the hidden regular file `.foo.package` has
extension `package` under path-extension semantics, so `get_file_hashes`
includes it — hidden files are not excluded as such, refuting the claim's
hidden-file clause. -/
theorem hidden_package_file_included :
    rustExtension ".foo.package" = some "package" ∧
    isHiddenName ".foo.package" = true ∧
    ".foo.package" ∈ (get_file_hashes hiddenEntries fun _ => "h").1 ∧
    ¬∀ (entries : List FsEntry) (hashOf : String → String) (e : FsEntry),
        e ∈ entries → isHiddenName e.name = true →
        e.name ∉ (get_file_hashes entries hashOf).1 := by
  refine ⟨by decide, by decide, by decide, fun h => ?_⟩
  exact h hiddenEntries (fun _ => "h") ⟨".foo.package", FsKind.file⟩ (by decide) (by decide)
    (by decide)

/-- Claim C8 as amended: `get_file_hashes` returns exactly the immediate
entries that are regular files whose path-extension is `package` or
`ts4script` (so subdirectories and other extensions are excluded, while a
dotfile is excluded only when its name yields no recognized extension),
and the fingerprint map's key set equals the returned name set, each key
mapped to its fingerprint. -/
theorem get_file_hashes_charn (entries : List FsEntry) (hashOf : String → String)
    (n : String) :
    (n ∈ (get_file_hashes entries hashOf).1 ↔
      ∃ e ∈ entries, e.name = n ∧ e.kind = FsKind.file ∧
        (rustExtension e.name = some "package" ∨ rustExtension e.name = some "ts4script")) ∧
    (get_file_hashes entries hashOf).2.keys = (get_file_hashes entries hashOf).1 ∧
    ((get_file_hashes entries hashOf).2.get n =
      if n ∈ (get_file_hashes entries hashOf).1 then some (hashOf n) else none) ∧
    (rustExtension ".package" = none ∧ rustExtension ".foo.package" = some "package" ∧
      rustExtension "archive.zip" = some "zip" ∧ rustExtension "readme" = none) := by
  refine ⟨?_, rfl, rfl, by decide, by decide, by decide, by decide⟩
  simp only [get_file_hashes, scanned_package_names, List.mem_toFinset, List.mem_map,
    List.mem_filter, isRecognizedPackage, Bool.and_eq_true, Bool.or_eq_true,
    decide_eq_true_eq]
  constructor
  · rintro ⟨e, ⟨hmem, hkind, hext⟩, hname⟩
    exact ⟨e, hmem, hname, hkind, hext⟩
  · rintro ⟨e, hmem, hname, hkind, hext⟩
    exact ⟨e, ⟨hmem, hkind, hext⟩, hname⟩

/-- Claim C9 counterexample: in the scan's missing-mod pass over
`orphanState`, the confirmed delete of mod 1 commits (cascading away tag
7's only link), the prompt for mod 2 is cancelled, `scan` returns before
`cleanup_tags`, and the committed state keeps tag 7 in the tag listing
with zero links — the orphan persists beyond the write that removed its
last link. -/
theorem scan_cancel_leaves_orphan_tag :
    (scan_missing_pass orphanState [1, 2] orphanAnswers).1.tags = {7} ∧
    (scan_missing_pass orphanState [1, 2] orphanAnswers).1.links = ∅ ∧
    (scan_missing_pass orphanState [1, 2] orphanAnswers).2 = false ∧
    7 ∈ (scan_missing_pass orphanState [1, 2] orphanAnswers).1.tags ∧
    (∀ m : Int, (m, 7) ∉ (scan_missing_pass orphanState [1, 2] orphanAnswers).1.links) ∧
    ¬noOrphanTags (scan_missing_pass orphanState [1, 2] orphanAnswers).1 := by
  have hlinks : (scan_missing_pass orphanState [1, 2] orphanAnswers).1.links = ∅ := by decide
  refine ⟨by decide, hlinks, by decide, by decide, ?_, ?_⟩
  · intro m
    rw [hlinks]
    exact Finset.not_mem_empty _
  · intro h
    rcases h 7 (by decide) with ⟨m, hm⟩
    rw [hlinks] at hm
    exact Finset.not_mem_empty _ hm

/-- Claim C9 as amended: per-mod tag deletion, bulk tag apply and the
non-interactive edit each run `cleanup_tags` inside their own transaction,
so their result has no orphan tag, and a tag with zero links is absent
from a subsequent listing; the scan's missing-mod pass garbage-collects
only when its confirmation loop completes — its deletes commit one by one,
and a cancelled or failed prompt aborts the scan before `cleanup_tags`,
leaving any tag orphaned by an already-committed delete in place until a
later pass. -/
theorem tag_garbage_collection_amended (s : DbState) (missing : List Int)
    (answer : Int → PromptResult) (modId tagId : Int) (selected : Finset Int)
    (newTags : Finset Int) :
    noOrphanTags (delete_tag_action s modId tagId) ∧
    noOrphanTags (bulk_tag_action s tagId selected) ∧
    noOrphanTags (edit_set_tags s modId newTags) ∧
    (missing ≠ [] → (scan_missing_pass s missing answer).2 = true →
      noOrphanTags (scan_missing_pass s missing answer).1) ∧
    (∀ t : Int, (∀ m : Int, (m, t) ∉ (delete_tag_action s modId tagId).links) →
      t ∉ (delete_tag_action s modId tagId).tags) := by
  refine ⟨cleanup_no_orphans _, cleanup_no_orphans _, cleanup_no_orphans _, ?_, ?_⟩
  · intro hne hok
    have hempty : missing.isEmpty = false := by
      cases missing with
      | nil => exact absurd rfl hne
      | cons m rest => rfl
    simp only [scan_missing_pass, hempty, Bool.false_eq_true, if_false] at hok ⊢
    rcases hloop : run_missing_loop s missing answer with ⟨s1, b⟩
    cases b with
    | false =>
      rw [hloop] at hok
      simp at hok
    | true =>
      exact cleanup_no_orphans _
  · intro t hnone ht
    rcases cleanup_no_orphans _ t ht with ⟨m, hm⟩
    exact hnone m hm

/-- Claim C10: an entry named `mod_data` is excluded from the on-disk
subdirectory set before classification, so it is never a new mod and never
scanned as existing, and a recorded directory named `mod_data` is
classified missing even when such a directory exists on disk. -/
theorem mod_data_never_scanned (entries : List FsEntry) (recorded : Finset String) :
    "mod_data" ∉ mod_dir_subdirs entries ∧
    "mod_data" ∉ new_mods entries recorded ∧
    "mod_data" ∉ mods_to_scan entries recorded ∧
    ("mod_data" ∈ recorded → "mod_data" ∈ missing_mods entries recorded) := by
  have hsub : "mod_data" ∉ mod_dir_subdirs entries := by
    simp only [mod_dir_subdirs, List.mem_toFinset, List.mem_map, List.mem_filter]
    rintro ⟨e, ⟨-, hcond⟩, hname⟩
    rw [hname] at hcond
    simp at hcond
  refine ⟨hsub, ?_, ?_, ?_⟩
  · intro h
    exact hsub (Finset.mem_sdiff.1 h).1
  · intro h
    exact hsub (Finset.mem_inter.1 h).2
  · intro h
    exact Finset.mem_sdiff.2 ⟨h, hsub⟩

end Sims4ModOrganizer
